import Mathlib

/-!
Verification model of the Executioner task library (`executioner/tasks.py`).

The execution context (`env`, a Python dict) is modelled as an association
list from string keys to heterogeneous values.  External effects are made
explicit: a spawned process is represented by the data the code observes
(its eventual exit code and fresh stream handles), a socket's line reader by
the list of lines the transport will deliver, and the in-memory capture
buffer (a `StringIO` object) by its text plus a cursor.  A task's `run`
method becomes a function from the context to the context paired with an
optional raised error; mutations performed before a raise are kept, as in
Python.
-/

set_option linter.unusedVariables false

namespace Executioner

/-- An in-memory seekable text buffer (models `StringIO`): full text plus a
read/write cursor. -/
structure Buffer where
  content : String
  pos : Nat
deriving DecidableEq

/-- `StringIO.tell()`. -/
def Buffer.tell (b : Buffer) : Nat := b.pos

/-- `StringIO.seek(0, os.SEEK_END)`. -/
def Buffer.seekEnd (b : Buffer) : Buffer := { b with pos := b.content.length }

/-- `StringIO.seek(p)`. -/
def Buffer.seekTo (b : Buffer) (p : Nat) : Buffer := { b with pos := p }

/-- `StringIO.write(s)`: writes at the cursor, overwriting existing
characters, and advances the cursor. -/
def Buffer.write (b : Buffer) (s : String) : Buffer :=
  { content := String.mk (b.content.data.take b.pos ++ s.data ++
      b.content.data.drop (b.pos + s.length)),
    pos := b.pos + s.length }

/-- A value stored in the execution context.  `proc` carries the data the
code observes of a process handle: the exit code `wait()` will return.
`stream` is an opaque pipe handle, `sock` an opaque socket handle,
`sockFile` the line reader `socket.makefile()` (the lines the transport
will deliver), `buffer` a `StringIO` capture buffer. -/
inductive Value where
  | str : String → Value
  | num : Int → Value
  | list : List Value → Value
  | proc : Int → Value
  | stream : Nat → Value
  | sock : Nat → Value
  | sockFile : List String → Value
  | buffer : Buffer → Value

/-- Errors a task run can raise: `TaskError` (from `exceptions`), a dict
`KeyError`, or an attribute/type error from using a value of the wrong
shape. -/
inductive PyError where
  | taskError : String → PyError
  | keyError : String → PyError
  | typeError : PyError
deriving DecidableEq

/-- The execution context: a string-keyed association list (Python dict;
the spec fixes that insertion order is irrelevant, lookups are by name). -/
abbrev Env := List (String × Value)

/-- First-match lookup in a string-keyed association list. -/
def alistGet {β : Type} : List (String × β) → String → Option β
  | [], _ => none
  | (k, v) :: rest, key => if k = key then some v else alistGet rest key

/-- `env[key]` lookup. -/
def envGet (env : Env) (key : String) : Option Value := alistGet env key

/-- `env[key] = v` assignment (newest binding shadows any older one). -/
def envSet (env : Env) (key : String) (v : Value) : Env := (key, v) :: env

/-- `del env[key]`. -/
def envDel (env : Env) (key : String) : Env :=
  env.filter (fun p => ! (p.1 == key))

/-- `key in env`. -/
def envHasKey (env : Env) (key : String) : Bool := (envGet env key).isSome

/-! ## Process lifecycle tasks (`Execute`, `CheckExitCode`) -/

/-- The data the code observes of a `subprocess.Popen` spawn: the exit code
`wait()` will eventually return and fresh handles for the three standard
streams.  Command substitution and the OS spawn itself are external effects;
they read but never write the context. -/
structure SpawnedProcess where
  exitCode : Int
  stdinId : Nat
  stdoutId : Nat
  stderrId : Nat

namespace Execute

/-- `Execute.run` (tasks.py lines 170-190): stores the process handle and
`stdin`, plus `stdout`/`stderr` exactly when they are captured, then starts
the watchdog thread (which touches no context key). -/
def run (ignore_stdout ignore_stderr : Bool) (p : SpawnedProcess) (env : Env) : Env :=
  let env1 := envSet env "PROCESS" (.proc p.exitCode)
  let env2 := envSet env1 "STDIN" (.stream p.stdinId)
  let env3 := if ignore_stdout then env2 else envSet env2 "STDOUT" (.stream p.stdoutId)
  if ignore_stderr then env3 else envSet env3 "STDERR" (.stream p.stderrId)

end Execute

/-- The `ok` argument of `CheckExitCode.__init__`: either a single code or a
Python list of codes. -/
inductive OkArg where
  | single : Int → OkArg
  | codes : List Int → OkArg

namespace CheckExitCode

/-- `CheckExitCode.__init__` (lines 198-204): a non-list argument is wrapped
into a singleton list. -/
def okList : OkArg → List Int
  | .single c => [c]
  | .codes l => l

/-- The default of the `ok` parameter (`ok=0`). -/
def defaultOk : OkArg := .single 0

/-- `CheckExitCode.run` (lines 206-217).  `wait()` is modelled by reading
the exit code off the process handle; in Python `env["EXIT_CODE"]` is
assigned before the failure is raised, so the mutated context is returned
alongside the error. -/
def run (ok : List Int) (env : Env) : Env × Option PyError :=
  match envGet env "PROCESS" with
  | none =>
      (env, some (.taskError "PROCESS not set, call Execute before CheckExitCode"))
  | some (.proc code) =>
      let env1 := envSet env "EXIT_CODE" (.num code)
      if code ∈ ok then (env1, none)
      else
        (env1, some (.taskError "Execute failed, unexpected exit code"))
  | some _ => (env, some .typeError)

end CheckExitCode

/-! ## `Return` -/

namespace Return

/-- `Return.run` (lines 396-400): deletes every key of the context that is
not among the requested fields, i.e. keeps exactly the entries whose key is
in the allow-list. -/
def run (fields : List String) (env : Env) : Env :=
  env.filter (fun p => decide (p.1 ∈ fields))

end Return

/-! ## Channel tasks (`Connect`, `Receive`, `Disconnect`) -/

namespace Connect

/-- `Connect.run` (lines 570-584): fails if a socket is already present;
otherwise stores a fresh socket handle, the line reader over it (the lines
the transport will deliver), and an empty capture buffer under `STDOUT`. -/
def run (newSock : Nat) (incoming : List String) (env : Env) : Env × Option PyError :=
  if envHasKey env "SOCKET" then
    (env, some (.taskError "SOCKET already defined, close prior connection first"))
  else
    (envSet (envSet (envSet env "SOCKET" (.sock newSock))
        "SOCKET_FILE" (.sockFile incoming))
      "STDOUT" (.buffer { content := "", pos := 0 }), none)

end Connect

/-- `file.readline()` on the socket reader: the next line of the transport,
or the empty string once the transport is exhausted. -/
def readline : List String → String × List String
  | [] => ("", [])
  | l :: rest => (l, rest)

/-- The `for i in range(self.numlines)` loop of `Receive.run`: reads one
line at a time and writes it into the buffer at its cursor. -/
def receiveLines : Nat → List String → Buffer → List String × Buffer
  | 0, ls, b => (ls, b)
  | n + 1, ls, b =>
      let r := readline ls
      receiveLines n r.2 (b.write r.1)

namespace Receive

/-- `Receive.run` (lines 616-634).  Note that the constructor parameter
`name` is never read by `run`: the lines always go to the reserved
`STDOUT` buffer. -/
def run (name : String) (numlines : Nat) (env : Env) : Env × Option PyError :=
  if envHasKey env "SOCKET" = false then
    (env, some (.taskError "SOCKET not defined, call Connect first"))
  else
    match envGet env "STDOUT" with
    | none => (env, some (.keyError "STDOUT"))
    | some (.buffer b) =>
        match envGet env "SOCKET_FILE" with
        | none => (env, some (.keyError "SOCKET_FILE"))
        | some (.sockFile ls) =>
            let pos := b.tell
            let b1 := b.seekEnd
            let r := receiveLines numlines ls b1
            let b2 := r.2.seekTo pos
            (envSet (envSet env "STDOUT" (.buffer b2)) "SOCKET_FILE" (.sockFile r.1),
              none)
        | some _ => (env, some .typeError)
    | some _ => (env, some .typeError)

end Receive

namespace Disconnect

/-- `Disconnect.run` (lines 645-653): a no-op when no socket is present;
otherwise shuts down and closes the socket (external effects on the handle)
and deletes the `SOCKET` key. -/
def run (env : Env) : Env × Option PyError :=
  match envGet env "SOCKET" with
  | none => (env, none)
  | some (.sock _) => (envDel env "SOCKET", none)
  | some _ => (env, some .typeError)

end Disconnect

/-! ## Structured extraction engine (`ParseXML`, `ParseJSON`, `ParseCSV`)

The query engines themselves (lxml's XPath, `jsonpath_rw`, Python `eval`
over a row) are external; a query binding is therefore embedded together
with the matches its query produces (XML/JSON) or as a function from a row
to an optional result (CSV).  Conversion functions land in the context, so
they are embedded as functions into `Value`. -/

/-- A value produced by an XPath query (or by a CSV row expression): either
already a string, or a node carrying its `.text`. -/
inductive XNode where
  | str : String → XNode
  | elem : String → XNode

/-- `value if isinstance(value, str) else value.text`. -/
def XNode.textOf : XNode → String
  | .str s => s
  | .elem t => t

/-- The collapse step shared verbatim by `ParseXML.run` (lines 432-435) and
`ParseCSV.run` (lines 540-543): one match yields the converted scalar,
otherwise the element-wise converted list. -/
def collapseText (values : List XNode) (conversion : String → Value) : Value :=
  match values with
  | [v] => conversion v.textOf
  | vs => Value.list (vs.map (fun v => conversion v.textOf))

/-- An XML query binding, with the matches `tree.xpath(...)` returns. -/
structure XMLField where
  values : List XNode
  key : String
  conversion : String → Value

namespace ParseXML

/-- `ParseXML.run` (lines 417-437): each binding writes its collapsed
result to its destination key, in registration order. -/
def run (fields : List XMLField) (env : Env) : Env :=
  fields.foldl (fun e f => envSet e f.key (collapseText f.values f.conversion)) env

end ParseXML

/-- A JSON value as seen by a `jsonpath_rw` match's `.value`: a list, or
any non-list value (carried opaquely as its printed form). -/
inductive JValue where
  | atom : String → JValue
  | arr : List JValue → JValue

/-- The collapse step of `ParseJSON.run` (lines 467-473): a single match
whose value is a list is mapped element-wise; a single non-list match is
converted as a scalar; otherwise the matches are converted element-wise. -/
def jsonCollapse (values : List JValue) (conversion : JValue → Value) : Value :=
  match values with
  | [v] =>
      match v with
      | .arr elems => Value.list (elems.map conversion)
      | v => conversion v
  | vs => Value.list (vs.map conversion)

/-- A JSON query binding, with the values of the matches `expr.find`
returns. -/
structure JSONField where
  values : List JValue
  key : String
  conversion : JValue → Value

namespace ParseJSON

/-- `ParseJSON.run` (lines 454-475). -/
def run (fields : List JSONField) (env : Env) : Env :=
  fields.foldl (fun e f => envSet e f.key (jsonCollapse f.values f.conversion)) env

end ParseJSON

/-- A CSV row as produced by `csv.DictReader`: column header to cell. -/
abbrev Row := List (String × String)

/-- The cleanup loop of `ParseCSV.run` (lines 520-523): strips headers and
cells. -/
def cleanupRow (row : Row) : Row :=
  row.map (fun p => (p.1.trim, p.2.trim))

/-- A CSV query binding.  The `eval` of the row expression (the source
appends " else None" so a non-matching row yields `None`) is embedded as a
function from the cleaned row to an optional result. -/
structure CSVField where
  query : Row → Option XNode
  key : String
  conversion : String → Value

/-- `results[key] = [result]` on first match, `results[key].append(result)`
afterwards (lines 531-535); insertion order of keys is preserved. -/
def addResult : List (String × List XNode) → String → XNode → List (String × List XNode)
  | [], key, v => [(key, [v])]
  | (k, vs) :: rest, key, v =>
      if k = key then (k, vs ++ [v]) :: rest
      else (k, vs) :: addResult rest key v

namespace ParseCSV

/-- The accumulation phase of `ParseCSV.run` (lines 519-535): for each row
in order, each binding's expression is evaluated on the cleaned row and a
non-`None` result is appended under the binding's destination key. -/
def accumulate (fields : List CSVField) (rows : List Row) : List (String × List XNode) :=
  rows.foldl
    (fun res row =>
      fields.foldl
        (fun r f =>
          match f.query (cleanupRow row) with
          | some v => addResult r f.key v
          | none => r)
        res)
    []

/-- The conversion the collapse loop of `ParseCSV.run` actually applies:
the Python loop variable `conversion` leaks out of the
`for (expr,key,conversion) in self.fields` loop, so after the row loop it
holds the conversion of the **last** registered binding.  When `fields` is
empty no result is ever accumulated and the collapse loop body never runs,
so the default branch below is never applied (theorem `accumulate_nil`
proves the accumulator is empty then). -/
def lastConversion (fields : List CSVField) : String → Value :=
  match fields.getLast? with
  | some f => f.conversion
  | none => fun s => Value.str s

/-- `ParseCSV.run` (lines 512-545): accumulate, then collapse each
accumulated field with `lastConversion`. -/
def run (fields : List CSVField) (rows : List Row) (env : Env) : Env :=
  (accumulate fields rows).foldl
    (fun e kv => envSet e kv.1 (collapseText kv.2 (lastConversion fields))) env

end ParseCSV

/-- Folding a list of assignments into the context. -/
def setAll (env : Env) (kvs : List (String × Value)) : Env :=
  kvs.foldl (fun e kv => envSet e kv.1 kv.2) env

/-- Concatenation of a list of lines. -/
def concatLines : List String → String
  | [] => ""
  | l :: ls => l ++ concatLines ls

/-- Whether a string ends in a newline character. -/
def endsWithNewline (s : String) : Bool := s.data.getLast? == some '\n'

/-! ## Helper lemmas -/

theorem envGet_set (env : Env) (k key : String) (v : Value) :
    envGet (envSet env k v) key = if k = key then some v else envGet env key := by
  simp [envGet, envSet, alistGet]

theorem alistGet_filter_ne {β : Type} (l : List (String × β)) (k key : String) :
    alistGet (l.filter (fun p => ! (p.1 == k))) key =
      if key = k then none else alistGet l key := by
  induction l with
  | nil => simp [alistGet]
  | cons p rest ih =>
    obtain ⟨k', v'⟩ := p
    simp only [List.filter_cons]
    by_cases h1 : k' = k
    · subst h1
      by_cases h2 : key = k'
      · subst h2
        simp [alistGet, ih]
      · have h3 : ¬ k' = key := fun h => h2 h.symm
        simp [alistGet, ih, h2, h3]
    · by_cases h2 : key = k
      · subst h2
        simp [alistGet, h1, ih]
      · simp [alistGet, h1, h2, ih]

theorem envGet_del (env : Env) (k key : String) :
    envGet (envDel env k) key = if key = k then none else envGet env key := by
  simpa [envGet, envDel] using alistGet_filter_ne env k key

theorem envHasKey_iff (env : Env) (key : String) :
    envHasKey env key = true ↔ ∃ v, envGet env key = some v := by
  simp [envHasKey, Option.isSome_iff_exists]

theorem accumulate_nil (rows : List Row) : ParseCSV.accumulate [] rows = [] := by
  simp [ParseCSV.accumulate]

theorem getSetAll_not_mem : ∀ (kvs : List (String × Value)) (env : Env) (key : String),
    (∀ p ∈ kvs, p.1 ≠ key) → envGet (setAll env kvs) key = envGet env key := by
  intro kvs
  induction kvs with
  | nil => intro env key h; rfl
  | cons p rest ih =>
      intro env key h
      have hp : p.1 ≠ key := h p (List.mem_cons_self p rest)
      have hrest := ih (envSet env p.1 p.2) key (fun q hq => h q (List.mem_cons_of_mem p hq))
      calc envGet (setAll env (p :: rest)) key
          = envGet (setAll (envSet env p.1 p.2) rest) key := rfl
        _ = envGet (envSet env p.1 p.2) key := hrest
        _ = envGet env key := by simp [envGet_set, hp]

theorem getSetAll_mem : ∀ (kvs : List (String × Value)) (env : Env) (key : String) (v : Value),
    (kvs.map Prod.fst).Nodup → (key, v) ∈ kvs → envGet (setAll env kvs) key = some v := by
  intro kvs
  induction kvs with
  | nil => intro env key v _ hmem; cases hmem
  | cons p rest ih =>
      intro env key v hnd hmem
      rw [List.map_cons, List.nodup_cons] at hnd
      rcases List.mem_cons.mp hmem with heq | hmem'
      · subst heq
        have hall : ∀ q ∈ rest, q.1 ≠ key := by
          intro q hq hcon
          apply hnd.1
          have hmm : Prod.fst q ∈ rest.map Prod.fst := List.mem_map_of_mem Prod.fst hq
          rw [← hcon]
          exact hmm
        calc envGet (setAll env ((key, v) :: rest)) key
            = envGet (setAll (envSet env key v) rest) key := rfl
          _ = envGet (envSet env key v) key := getSetAll_not_mem rest _ key hall
          _ = some v := by simp [envGet_set]
      · exact ih (envSet env p.1 p.2) key v hnd.2 hmem'

theorem alistGet_mem {β : Type} : ∀ (l : List (String × β)) (key : String) (v : β),
    alistGet l key = some v → (key, v) ∈ l := by
  intro l
  induction l with
  | nil => intro key v h; simp [alistGet] at h
  | cons p rest ih =>
      intro key v h
      obtain ⟨k', v'⟩ := p
      by_cases hk : k' = key
      · subst hk
        simp [alistGet] at h
        subst h
        exact List.mem_cons_self _ _
      · simp [alistGet, hk] at h
        exact List.mem_cons_of_mem _ (ih key v h)

theorem alistGet_none_forall {β : Type} : ∀ (l : List (String × β)) (key : String),
    alistGet l key = none → ∀ p ∈ l, p.1 ≠ key := by
  intro l
  induction l with
  | nil => intro key _ p hp; cases hp
  | cons q rest ih =>
      intro key h p hp
      obtain ⟨k', v'⟩ := q
      by_cases hk : k' = key
      · subst hk; simp [alistGet] at h
      · simp [alistGet, hk] at h
        rcases List.mem_cons.mp hp with heq | hmem
        · subst heq; exact hk
        · exact ih key h p hmem

theorem addResult_map_fst : ∀ (res : List (String × List XNode)) (key : String) (v : XNode),
    (addResult res key v).map Prod.fst =
      if key ∈ res.map Prod.fst then res.map Prod.fst
      else res.map Prod.fst ++ [key] := by
  intro res
  induction res with
  | nil => intro key v; simp [addResult]
  | cons p rest ih =>
      intro key v
      obtain ⟨k', vs⟩ := p
      by_cases h : k' = key
      · subst h; simp [addResult]
      · have h' : ¬ key = k' := fun hh => h hh.symm
        by_cases hc : key ∈ rest.map Prod.fst
        · simp [addResult, h, ih, hc, h']
        · simp [addResult, h, ih, hc, h']

theorem addResult_nodup (res : List (String × List XNode)) (key : String) (v : XNode)
    (h : (res.map Prod.fst).Nodup) : ((addResult res key v).map Prod.fst).Nodup := by
  rw [addResult_map_fst]
  by_cases hc : key ∈ res.map Prod.fst
  · simpa [hc] using h
  · simp only [hc, if_false]
    rw [List.nodup_append]
    exact ⟨h, List.nodup_singleton key, by simpa [List.disjoint_singleton] using hc⟩

theorem foldl_preserve {α : Type _} {β : Type _} (P : α → Prop) (step : α → β → α)
    (hstep : ∀ a b, P a → P (step a b)) : ∀ (l : List β) (a : α), P a → P (l.foldl step a) := by
  intro l
  induction l with
  | nil => intro a h; exact h
  | cons x xs ih => intro a h; exact ih (step a x) (hstep a x h)

theorem accumulate_nodup (fields : List CSVField) (rows : List Row) :
    ((ParseCSV.accumulate fields rows).map Prod.fst).Nodup := by
  unfold ParseCSV.accumulate
  refine foldl_preserve
    (fun res : List (String × List XNode) => (res.map Prod.fst).Nodup) _ ?_ rows [] ?_
  · intro res row hres
    refine foldl_preserve
      (fun r : List (String × List XNode) => (r.map Prod.fst).Nodup) _ ?_ fields res hres
    intro r f hr
    cases hq : f.query (cleanupRow row) with
    | none => simpa [hq] using hr
    | some v => simpa [hq] using addResult_nodup r f.key v hr
  · simp

theorem ParseXML_run_eq_setAll (fields : List XMLField) (env : Env) :
    ParseXML.run fields env =
      setAll env (fields.map fun f => (f.key, collapseText f.values f.conversion)) := by
  simp [ParseXML.run, setAll, List.foldl_map]

theorem ParseJSON_run_eq_setAll (fields : List JSONField) (env : Env) :
    ParseJSON.run fields env =
      setAll env (fields.map fun f => (f.key, jsonCollapse f.values f.conversion)) := by
  simp [ParseJSON.run, setAll, List.foldl_map]

theorem ParseCSV_run_eq_setAll (fields : List CSVField) (rows : List Row) (env : Env) :
    ParseCSV.run fields rows env =
      setAll env ((ParseCSV.accumulate fields rows).map
        fun kv => (kv.1, collapseText kv.2 (ParseCSV.lastConversion fields))) := by
  simp [ParseCSV.run, setAll, List.foldl_map]

theorem strExt {a b : String} (h : a.data = b.data) : a = b := by
  cases a
  cases b
  exact congrArg String.mk h

theorem strAppend_data (a b : String) : (a ++ b).data = a.data ++ b.data := rfl

theorem strLength_data (s : String) : s.length = s.data.length := rfl

theorem strLength_append (a b : String) : (a ++ b).length = a.length + b.length := by
  rw [strLength_data, strAppend_data, List.length_append]
  rfl

theorem strAppend_assoc (a b c : String) : (a ++ b) ++ c = a ++ (b ++ c) := by
  apply strExt
  rw [strAppend_data, strAppend_data, strAppend_data, strAppend_data, List.append_assoc]

theorem strAppend_empty (a : String) : a ++ "" = a := by
  apply strExt
  rw [strAppend_data]
  simp [String.data]

theorem Buffer.write_at_end (b : Buffer) (s : String) (h : b.pos = b.content.length) :
    b.write s = { content := b.content ++ s, pos := b.content.length + s.length } := by
  obtain ⟨content, pos⟩ := b
  simp only at h
  subst h
  simp only [Buffer.write, Buffer.mk.injEq]
  constructor
  · apply strExt
    have h1 : content.data.take content.length = content.data := by
      rw [strLength_data, List.take_length]
    have h2 : content.data.drop (content.length + s.length) = [] := by
      apply List.drop_eq_nil_of_le
      rw [strLength_data]
      exact Nat.le_add_right _ _
    rw [h1, h2, List.append_nil]
    rfl
  · trivial

theorem receiveLines_spec : ∀ (n : Nat) (ls : List String) (b : Buffer),
    b.pos = b.content.length → n ≤ ls.length →
    receiveLines n ls b =
      (ls.drop n,
        { content := b.content ++ concatLines (ls.take n),
          pos := (b.content ++ concatLines (ls.take n)).length }) := by
  intro n
  induction n with
  | zero =>
      intro ls b h hn
      simp only [receiveLines, List.drop_zero, List.take_zero, concatLines]
      obtain ⟨content, pos⟩ := b
      simp only at h
      subst h
      rw [strAppend_empty]
  | succ n ih =>
      intro ls b h hn
      cases ls with
      | nil => simp at hn
      | cons l rest =>
          simp only [receiveLines, readline]
          rw [Buffer.write_at_end b l h]
          have hpos : (Buffer.mk (b.content ++ l) (b.content.length + l.length)).pos =
              (Buffer.mk (b.content ++ l) (b.content.length + l.length)).content.length := by
            simp [strLength_append]
          have hlen : n ≤ rest.length := by
            simpa using Nat.lt_succ_iff.mp (Nat.lt_of_lt_of_le (Nat.lt_succ_self n) hn)
          rw [ih rest _ hpos hlen]
          simp [List.drop_succ_cons, List.take_succ_cons, concatLines, strAppend_assoc]

theorem Receive_run_spec (name : String) (n : Nat) (env : Env) (sid : Nat) (b : Buffer)
    (ls : List String)
    (hs : envGet env "SOCKET" = some (.sock sid))
    (hb : envGet env "STDOUT" = some (.buffer b))
    (hf : envGet env "SOCKET_FILE" = some (.sockFile ls))
    (hn : n ≤ ls.length) :
    Receive.run name n env =
      (envSet (envSet env "STDOUT"
          (.buffer { content := b.content ++ concatLines (ls.take n), pos := b.pos }))
        "SOCKET_FILE" (.sockFile (ls.drop n)), none) := by
  have hk : envHasKey env "SOCKET" = true := by simp [envHasKey, hs]
  have hrl := receiveLines_spec n ls b.seekEnd rfl hn
  simp only [Receive.run, hk, hb, hf, Bool.true_eq_false, if_false, Buffer.tell]
  rw [hrl]
  rfl

/-! ## Claims -/

/-- C1 (amended).  The collapse rule per dialect, as the code implements it.
XML: every binding's destination field is set to the collapse of its
matches with its own conversion, where one match collapses to the converted
scalar and zero or several matches to the element-wise converted list.
JSON: the same, except that a single match whose value is itself a list is
set to the element-wise conversion of that list's elements, not to a
scalar.  CSV: results are accumulated per destination field across all
rows; a field with accumulated results is set to their collapse under the
conversion of the last registered binding, and a field with zero
accumulated results is left unchanged rather than set to an empty list. -/
theorem claim_C1 :
    (∀ (fields : List XMLField) (env : Env),
       (fields.map XMLField.key).Nodup →
       ∀ f ∈ fields,
         envGet (ParseXML.run fields env) f.key =
           some (collapseText f.values f.conversion)) ∧
    (∀ (conversion : String → Value) (v : XNode),
       collapseText [v] conversion = conversion v.textOf) ∧
    (∀ (conversion : String → Value) (vs : List XNode), vs.length ≠ 1 →
       collapseText vs conversion = Value.list (vs.map (fun v => conversion v.textOf))) ∧
    (∀ (fields : List JSONField) (env : Env),
       (fields.map JSONField.key).Nodup →
       ∀ f ∈ fields,
         envGet (ParseJSON.run fields env) f.key =
           some (jsonCollapse f.values f.conversion)) ∧
    (∀ (conversion : JValue → Value) (s : String),
       jsonCollapse [JValue.atom s] conversion = conversion (JValue.atom s)) ∧
    (∀ (conversion : JValue → Value) (elems : List JValue),
       jsonCollapse [JValue.arr elems] conversion = Value.list (elems.map conversion)) ∧
    (∀ (conversion : JValue → Value) (vs : List JValue), vs.length ≠ 1 →
       jsonCollapse vs conversion = Value.list (vs.map conversion)) ∧
    (∀ (fields : List CSVField) (rows : List Row) (env : Env) (key : String),
       (alistGet (ParseCSV.accumulate fields rows) key = none →
          envGet (ParseCSV.run fields rows env) key = envGet env key) ∧
       (∀ values, alistGet (ParseCSV.accumulate fields rows) key = some values →
          envGet (ParseCSV.run fields rows env) key =
            some (collapseText values (ParseCSV.lastConversion fields)))) := by
  refine ⟨?_, ?_, ?_, ?_, ?_, ?_, ?_, ?_⟩
  · intro fields env hnd f hf
    rw [ParseXML_run_eq_setAll]
    apply getSetAll_mem
    · simpa [List.map_map, Function.comp] using hnd
    · exact List.mem_map_of_mem _ hf
  · intro conversion v
    rfl
  · intro conversion vs hlen
    cases vs with
    | nil => rfl
    | cons v rest =>
        cases rest with
        | nil => exact absurd rfl hlen
        | cons w rest2 => rfl
  · intro fields env hnd f hf
    rw [ParseJSON_run_eq_setAll]
    apply getSetAll_mem
    · simpa [List.map_map, Function.comp] using hnd
    · exact List.mem_map_of_mem _ hf
  · intro conversion s
    rfl
  · intro conversion elems
    rfl
  · intro conversion vs hlen
    cases vs with
    | nil => rfl
    | cons v rest =>
        cases rest with
        | nil => exact absurd rfl hlen
        | cons w rest2 => rfl
  · intro fields rows env key
    constructor
    · intro hnone
      rw [ParseCSV_run_eq_setAll]
      apply getSetAll_not_mem
      intro p hp
      obtain ⟨kv, hkv, rfl⟩ := List.mem_map.mp hp
      exact alistGet_none_forall _ key hnone kv hkv
    · intro values hsome
      rw [ParseCSV_run_eq_setAll]
      apply getSetAll_mem
      · simpa [List.map_map, Function.comp] using accumulate_nodup fields rows
      · exact List.mem_map_of_mem _ (alistGet_mem _ key values hsome)

/-- C1 counterexample.  In the JSON dialect a query yielding exactly one
matched value whose value is the list `["1"]`, with a conversion that
returns the string `"c"` on every input, sets the destination field to the
list `[c]`, not to the scalar `conversion(value) = c` the claim demands. -/
theorem claim_C1_counterexample :
    envGet (ParseJSON.run
        [{ values := [JValue.arr [JValue.atom "1"]], key := "x",
           conversion := fun _ => Value.str "c" }] []) "x" =
      some (Value.list [Value.str "c"]) ∧
    envGet (ParseJSON.run
        [{ values := [JValue.arr [JValue.atom "1"]], key := "x",
           conversion := fun _ => Value.str "c" }] []) "x" ≠ some (Value.str "c") := by
  constructor
  · rfl
  · intro h
    exact Value.noConfusion (Option.some.inj h)

/-- C1 witness: the XML clause at a single binding with one element match,
and the CSV zero-accumulation clause at a key no row produced. -/
theorem claim_C1_witness :
    envGet (ParseXML.run
        [{ values := [XNode.elem "7"], key := "x",
           conversion := fun s => Value.str s }] []) "x" = some (Value.str "7") ∧
    envGet (ParseCSV.run
        [{ query := fun _ => some (XNode.str "1"), key := "a",
           conversion := fun s => Value.str s }] [[("h", "v")], [("h", "w")]]
        [("z", Value.num 9)]) "z" = some (Value.num 9) := by
  constructor
  · exact claim_C1.1
      [{ values := [XNode.elem "7"], key := "x",
         conversion := fun s => Value.str s }] [] (by simp)
      { values := [XNode.elem "7"], key := "x", conversion := fun s => Value.str s }
      (List.mem_singleton.mpr rfl)
  · have h := (claim_C1.2.2.2.2.2.2.2
      [{ query := fun _ => some (XNode.str "1"), key := "a",
         conversion := fun s => Value.str s }] [[("h", "v")], [("h", "w")]]
      [("z", Value.num 9)] "z").1 rfl
    exact h.trans rfl

/-- C2: with a channel open and at least `n` lines available on the
transport, `receive(n)` succeeds, appends exactly the next `n`
(newline-terminated) lines to the end of the `STDOUT` capture buffer,
restores the buffer's cursor to its pre-call position, consumes those `n`
lines from the reader, and changes no other context key. -/
theorem claim_C2 (name : String) (n : Nat) (env : Env) (sid : Nat) (b : Buffer)
    (ls : List String)
    (hs : envGet env "SOCKET" = some (.sock sid))
    (hb : envGet env "STDOUT" = some (.buffer b))
    (hf : envGet env "SOCKET_FILE" = some (.sockFile ls))
    (hn : n ≤ ls.length)
    (hnl : ∀ l ∈ ls.take n, endsWithNewline l = true) :
    ∃ env', Receive.run name n env = (env', none) ∧
      envGet env' "STDOUT" =
        some (.buffer { content := b.content ++ concatLines (ls.take n), pos := b.pos }) ∧
      (ls.take n).length = n ∧
      (∀ l ∈ ls.take n, endsWithNewline l = true) ∧
      envGet env' "SOCKET_FILE" = some (.sockFile (ls.drop n)) ∧
      (∀ k, k ≠ "STDOUT" → k ≠ "SOCKET_FILE" → envGet env' k = envGet env k) := by
  refine ⟨_, Receive_run_spec name n env sid b ls hs hb hf hn, ?_, ?_, hnl, ?_, ?_⟩
  · simp [envGet_set]
  · rw [List.length_take]
    exact Nat.min_eq_left hn
  · simp [envGet_set]
  · intro k hk1 hk2
    have h1 : ¬ ("STDOUT" = k) := fun h => hk1 h.symm
    have h2 : ¬ ("SOCKET_FILE" = k) := fun h => hk2 h.symm
    simp [envGet_set, h1, h2]

/-- C2 witness: receiving two lines into an empty capture buffer. -/
theorem claim_C2_witness :
    ∃ env', Receive.run "X" 2
        [("SOCKET", Value.sock 0), ("STDOUT", Value.buffer { content := "", pos := 0 }),
         ("SOCKET_FILE", Value.sockFile ["a\n", "b\n"])] = (env', none) ∧
      envGet env' "STDOUT" = some (Value.buffer { content := "a\nb\n", pos := 0 }) ∧
      envGet env' "SOCKET_FILE" = some (Value.sockFile []) := by
  obtain ⟨env', h1, h2, _, _, h5, _⟩ := claim_C2 "X" 2
    [("SOCKET", Value.sock 0), ("STDOUT", Value.buffer { content := "", pos := 0 }),
     ("SOCKET_FILE", Value.sockFile ["a\n", "b\n"])]
    0 { content := "", pos := 0 } ["a\n", "b\n"] rfl rfl rfl (by decide) (by decide)
  exact ⟨env', h1, h2, h5⟩

/-- C3: with a process handle present, the exit-code check records the
process's exit code under `EXIT_CODE`, modifies no other key, and raises a
task error exactly when the code is not in the accepted list; the accepted
list defaults to `[0]` and a non-list argument becomes a singleton. -/
theorem claim_C3 (ok : OkArg) (env : Env) (code : Int)
    (hp : envGet env "PROCESS" = some (.proc code)) :
    (CheckExitCode.run (CheckExitCode.okList ok) env).1 =
      envSet env "EXIT_CODE" (.num code) ∧
    envGet (CheckExitCode.run (CheckExitCode.okList ok) env).1 "EXIT_CODE" =
      some (.num code) ∧
    (∀ k, k ≠ "EXIT_CODE" →
       envGet (CheckExitCode.run (CheckExitCode.okList ok) env).1 k = envGet env k) ∧
    ((∃ msg, (CheckExitCode.run (CheckExitCode.okList ok) env).2 =
        some (.taskError msg)) ↔ code ∉ CheckExitCode.okList ok) ∧
    CheckExitCode.okList CheckExitCode.defaultOk = [0] ∧
    (∀ c : Int, CheckExitCode.okList (OkArg.single c) = [c]) := by
  by_cases hc : code ∈ CheckExitCode.okList ok
  · refine ⟨?_, ?_, ?_, ?_, rfl, fun c => rfl⟩
    · simp [CheckExitCode.run, hp, hc]
    · simp [CheckExitCode.run, hp, hc, envGet_set]
    · intro k hk
      have h1 : ¬ ("EXIT_CODE" = k) := fun h => hk h.symm
      simp [CheckExitCode.run, hp, hc, envGet_set, h1]
    · simp [CheckExitCode.run, hp, hc]
  · refine ⟨?_, ?_, ?_, ?_, rfl, fun c => rfl⟩
    · simp [CheckExitCode.run, hp, hc]
    · simp [CheckExitCode.run, hp, hc, envGet_set]
    · intro k hk
      have h1 : ¬ ("EXIT_CODE" = k) := fun h => hk h.symm
      simp [CheckExitCode.run, hp, hc, envGet_set, h1]
    · simp [CheckExitCode.run, hp, hc]

/-- C3 witness: a process that exited with code 5 against accepted codes
`[0, 2]`: the code is recorded and a task error is raised. -/
theorem claim_C3_witness :
    envGet (CheckExitCode.run (CheckExitCode.okList (OkArg.codes [0, 2]))
        [("PROCESS", Value.proc 5)]).1 "EXIT_CODE" = some (Value.num 5) ∧
    (∃ msg, (CheckExitCode.run (CheckExitCode.okList (OkArg.codes [0, 2]))
        [("PROCESS", Value.proc 5)]).2 = some (PyError.taskError msg)) := by
  have h := claim_C3 (OkArg.codes [0, 2]) [("PROCESS", Value.proc 5)] 5 rfl
  exact ⟨h.2.1, h.2.2.2.1.mpr (by decide)⟩

/-- C4: with no process handle in the context, the exit-code check fails
immediately with the precondition task error and returns the context
unchanged. -/
theorem claim_C4 (okl : List Int) (env : Env) (h : envGet env "PROCESS" = none) :
    CheckExitCode.run okl env =
      (env, some (.taskError "PROCESS not set, call Execute before CheckExitCode")) := by
  simp [CheckExitCode.run, h]

/-- C4 witness: the empty context. -/
theorem claim_C4_witness :
    CheckExitCode.run [0] [] =
      (([] : Env),
        some (PyError.taskError "PROCESS not set, call Execute before CheckExitCode")) :=
  claim_C4 [0] [] rfl

/-- C5: when a socket is already present, a second `connect` raises the
precondition task error and returns the context unchanged, so the existing
socket, reader, and capture-buffer entries are untouched. -/
theorem claim_C5 (env : Env) (newSock : Nat) (incoming : List String)
    (h : envHasKey env "SOCKET" = true) :
    Connect.run newSock incoming env =
      (env, some (.taskError "SOCKET already defined, close prior connection first")) ∧
    envGet (Connect.run newSock incoming env).1 "SOCKET" = envGet env "SOCKET" ∧
    envGet (Connect.run newSock incoming env).1 "SOCKET_FILE" = envGet env "SOCKET_FILE" ∧
    envGet (Connect.run newSock incoming env).1 "STDOUT" = envGet env "STDOUT" := by
  have h1 : Connect.run newSock incoming env =
      (env, some (.taskError "SOCKET already defined, close prior connection first")) := by
    simp [Connect.run, h]
  refine ⟨h1, ?_, ?_, ?_⟩ <;> rw [h1]

/-- C5 witness: a context holding an open socket. -/
theorem claim_C5_witness :
    Connect.run 1 [] [("SOCKET", Value.sock 0)] =
      ([("SOCKET", Value.sock 0)],
        some (PyError.taskError "SOCKET already defined, close prior connection first")) :=
  (claim_C5 [("SOCKET", Value.sock 0)] 1 [] rfl).1

/-- C6: `disconnect` with no socket is a no-op that never raises; with a
socket it removes the `SOCKET` key and never raises; hence two consecutive
calls never raise. -/
theorem claim_C6 :
    (∀ env : Env, envGet env "SOCKET" = none → Disconnect.run env = (env, none)) ∧
    (∀ (env : Env) (sid : Nat), envGet env "SOCKET" = some (.sock sid) →
       Disconnect.run env = (envDel env "SOCKET", none) ∧
       envGet (Disconnect.run env).1 "SOCKET" = none) ∧
    (∀ env : Env,
       (envGet env "SOCKET" = none ∨ ∃ sid, envGet env "SOCKET" = some (.sock sid)) →
       (Disconnect.run env).2 = none ∧
       (Disconnect.run (Disconnect.run env).1).2 = none) := by
  have hnone : ∀ env : Env, envGet env "SOCKET" = none → Disconnect.run env = (env, none) := by
    intro env h
    simp [Disconnect.run, h]
  have hsock : ∀ (env : Env) (sid : Nat), envGet env "SOCKET" = some (.sock sid) →
      Disconnect.run env = (envDel env "SOCKET", none) := by
    intro env sid h
    simp [Disconnect.run, h]
  refine ⟨hnone, ?_, ?_⟩
  · intro env sid h
    refine ⟨hsock env sid h, ?_⟩
    rw [hsock env sid h]
    simp [envGet_del]
  · intro env hcase
    rcases hcase with h | ⟨sid, h⟩
    · rw [hnone env h]
      simp [hnone env h]
    · rw [hsock env sid h]
      have h2 : envGet (envDel env "SOCKET") "SOCKET" = none := by
        simp [envGet_del]
      simp [hnone _ h2]

/-- C6 witness: disconnecting a one-socket context empties it, a repeated
call and a call on the empty context both return without error. -/
theorem claim_C6_witness :
    Disconnect.run [("SOCKET", Value.sock 0)] = (([] : Env), none) ∧
    (Disconnect.run (Disconnect.run [("SOCKET", Value.sock 0)]).1).2 = none ∧
    Disconnect.run ([] : Env) = (([] : Env), none) := by
  have h1 := (claim_C6.2.1 [("SOCKET", Value.sock 0)] 0 rfl).1
  have h2 := (claim_C6.2.2 [("SOCKET", Value.sock 0)] (Or.inr ⟨0, rfl⟩)).2
  have h3 := claim_C6.1 [] rfl
  refine ⟨?_, h2, h3⟩
  rw [h1]
  rfl

/-- C7: `execute` stores the process handle and its input stream
unconditionally, stores the output (resp. error) stream handle exactly when
stdout (resp. stderr) capture is enabled — leaving the key untouched when
capture is disabled — and modifies no other context key. -/
theorem claim_C7 (ignore_stdout ignore_stderr : Bool) (p : SpawnedProcess) (env : Env) :
    envGet (Execute.run ignore_stdout ignore_stderr p env) "PROCESS" =
      some (.proc p.exitCode) ∧
    envGet (Execute.run ignore_stdout ignore_stderr p env) "STDIN" =
      some (.stream p.stdinId) ∧
    envGet (Execute.run ignore_stdout ignore_stderr p env) "STDOUT" =
      (if ignore_stdout then envGet env "STDOUT" else some (.stream p.stdoutId)) ∧
    envGet (Execute.run ignore_stdout ignore_stderr p env) "STDERR" =
      (if ignore_stderr then envGet env "STDERR" else some (.stream p.stderrId)) ∧
    (∀ k, k ≠ "PROCESS" → k ≠ "STDIN" → k ≠ "STDOUT" → k ≠ "STDERR" →
       envGet (Execute.run ignore_stdout ignore_stderr p env) k = envGet env k) := by
  refine ⟨?_, ?_, ?_, ?_, ?_⟩
  · cases ignore_stdout <;> cases ignore_stderr <;> simp [Execute.run, envGet_set]
  · cases ignore_stdout <;> cases ignore_stderr <;> simp [Execute.run, envGet_set]
  · cases ignore_stdout <;> cases ignore_stderr <;> simp [Execute.run, envGet_set]
  · cases ignore_stdout <;> cases ignore_stderr <;> simp [Execute.run, envGet_set]
  · intro k h1 h2 h3 h4
    have h1' : ¬ ("PROCESS" = k) := fun h => h1 h.symm
    have h2' : ¬ ("STDIN" = k) := fun h => h2 h.symm
    have h3' : ¬ ("STDOUT" = k) := fun h => h3 h.symm
    have h4' : ¬ ("STDERR" = k) := fun h => h4 h.symm
    cases ignore_stdout <;> cases ignore_stderr <;>
      simp [Execute.run, envGet_set, h1', h2', h3', h4']

/-- C7 witness: with capture enabled the handles appear; with stdout
capture disabled the `STDOUT` key is untouched; an unrelated key is
preserved. -/
theorem claim_C7_witness :
    envGet (Execute.run false false ⟨0, 1, 2, 3⟩ [("X", Value.str "keep")]) "PROCESS" =
      some (Value.proc 0) ∧
    envGet (Execute.run true false ⟨0, 1, 2, 3⟩ [("X", Value.str "keep")]) "STDOUT" =
      none ∧
    envGet (Execute.run false false ⟨0, 1, 2, 3⟩ [("X", Value.str "keep")]) "X" =
      some (Value.str "keep") := by
  refine ⟨(claim_C7 false false ⟨0, 1, 2, 3⟩ [("X", Value.str "keep")]).1, ?_, ?_⟩
  · exact ((claim_C7 true false ⟨0, 1, 2, 3⟩ [("X", Value.str "keep")]).2.2.1).trans rfl
  · exact ((claim_C7 false false ⟨0, 1, 2, 3⟩ [("X", Value.str "keep")]).2.2.2.2 "X"
      (by decide) (by decide) (by decide) (by decide)).trans rfl

/-- C8: the pruning task keeps exactly the context entries whose key is in
the allow-list, with their values unchanged, and removes every other key. -/
theorem claim_C8 (fields : List String) (env : Env) (k : String) :
    (k ∈ fields → envGet (Return.run fields env) k = envGet env k) ∧
    (k ∉ fields → envGet (Return.run fields env) k = none) := by
  induction env with
  | nil =>
      constructor <;> intro h <;> simp [Return.run, envGet, alistGet]
  | cons p rest ih =>
      obtain ⟨k', v'⟩ := p
      constructor <;> intro h
      · by_cases hk : k' = k
        · subst hk
          simp [Return.run, List.filter_cons, h, envGet, alistGet]
        · by_cases hc : k' ∈ fields
          · have hrest := ih.1 h
            simp only [Return.run, envGet] at hrest ⊢
            simp [List.filter_cons, hc, envGet, alistGet, hk, hrest]
          · have hrest := ih.1 h
            simp only [Return.run, envGet] at hrest ⊢
            simp [List.filter_cons, hc, envGet, alistGet, hk, hrest]
      · by_cases hk : k' = k
        · subst hk
          have hrest := ih.2 h
          simp only [Return.run, envGet] at hrest ⊢
          simp [List.filter_cons, h, envGet, alistGet, hrest]
        · by_cases hc : k' ∈ fields
          · have hrest := ih.2 h
            simp only [Return.run, envGet] at hrest ⊢
            simp [List.filter_cons, hc, envGet, alistGet, hk, hrest]
          · have hrest := ih.2 h
            simp only [Return.run, envGet] at hrest ⊢
            simp [List.filter_cons, hc, envGet, alistGet, hrest]

/-- C8 witness: pruning to the allow-list `[a]` keeps `a` with its value
and removes `b`. -/
theorem claim_C8_witness :
    envGet (Return.run ["a"] [("a", Value.str "x"), ("b", Value.str "y")]) "a" =
      some (Value.str "x") ∧
    envGet (Return.run ["a"] [("a", Value.str "x"), ("b", Value.str "y")]) "b" = none := by
  constructor
  · exact ((claim_C8 ["a"] [("a", Value.str "x"), ("b", Value.str "y")] "a").1
      (by decide)).trans rfl
  · exact (claim_C8 ["a"] [("a", Value.str "x"), ("b", Value.str "y")] "b").2 (by decide)

/-- C9: `Receive.run` ignores its destination-field argument entirely — two
runs differing only in `name` are identical — and on success the received
lines land in the reserved `STDOUT` buffer while every key other than
`STDOUT` and the socket reader (in particular any field named by the
argument) keeps its previous value. -/
theorem claim_C9 :
    (∀ (name₁ name₂ : String) (n : Nat) (env : Env),
       Receive.run name₁ n env = Receive.run name₂ n env) ∧
    (∀ (name : String) (n : Nat) (env : Env) (sid : Nat) (b : Buffer) (ls : List String),
       envGet env "SOCKET" = some (.sock sid) →
       envGet env "STDOUT" = some (.buffer b) →
       envGet env "SOCKET_FILE" = some (.sockFile ls) →
       n ≤ ls.length →
       envGet (Receive.run name n env).1 "STDOUT" =
         some (.buffer { content := b.content ++ concatLines (ls.take n), pos := b.pos }) ∧
       (∀ k, k ≠ "STDOUT" → k ≠ "SOCKET_FILE" →
          envGet (Receive.run name n env).1 k = envGet env k)) := by
  constructor
  · intro name₁ name₂ n env
    rfl
  · intro name n env sid b ls hs hb hf hn
    rw [Receive_run_spec name n env sid b ls hs hb hf hn]
    constructor
    · simp [envGet_set]
    · intro k hk1 hk2
      have h1 : ¬ ("STDOUT" = k) := fun h => hk1 h.symm
      have h2 : ¬ ("SOCKET_FILE" = k) := fun h => hk2 h.symm
      simp [envGet_set, h1, h2]

/-- C9 witness: a `Receive` configured with destination field `RESULT`
behaves identically to one configured with any other name, and the
`RESULT` field keeps its previous value. -/
theorem claim_C9_witness :
    Receive.run "RESULT" 1
        [("SOCKET", Value.sock 0), ("STDOUT", Value.buffer { content := "", pos := 0 }),
         ("SOCKET_FILE", Value.sockFile ["x\n"]), ("RESULT", Value.str "old")] =
      Receive.run "OTHER" 1
        [("SOCKET", Value.sock 0), ("STDOUT", Value.buffer { content := "", pos := 0 }),
         ("SOCKET_FILE", Value.sockFile ["x\n"]), ("RESULT", Value.str "old")] ∧
    envGet (Receive.run "RESULT" 1
        [("SOCKET", Value.sock 0), ("STDOUT", Value.buffer { content := "", pos := 0 }),
         ("SOCKET_FILE", Value.sockFile ["x\n"]), ("RESULT", Value.str "old")]).1
      "RESULT" = some (Value.str "old") := by
  constructor
  · exact claim_C9.1 "RESULT" "OTHER" 1
      [("SOCKET", Value.sock 0), ("STDOUT", Value.buffer { content := "", pos := 0 }),
       ("SOCKET_FILE", Value.sockFile ["x\n"]), ("RESULT", Value.str "old")]
  · exact ((claim_C9.2 "RESULT" 1
      [("SOCKET", Value.sock 0), ("STDOUT", Value.buffer { content := "", pos := 0 }),
       ("SOCKET_FILE", Value.sockFile ["x\n"]), ("RESULT", Value.str "old")]
      0 { content := "", pos := 0 } ["x\n"] rfl rfl rfl (by decide)).2
      "RESULT" (by decide) (by decide)).trans rfl

/-- C10: in the CSV dialect, every accumulated destination field is
collapsed with the conversion of the last registered binding, whatever
binding produced the field's values. -/
theorem claim_C10 (fields : List CSVField) (flast : CSVField) (rows : List Row)
    (env : Env) (key : String) (values : List XNode)
    (hlast : fields.getLast? = some flast)
    (hacc : alistGet (ParseCSV.accumulate fields rows) key = some values) :
    envGet (ParseCSV.run fields rows env) key =
      some (collapseText values flast.conversion) := by
  have hconv : ParseCSV.lastConversion fields = flast.conversion := by
    simp [ParseCSV.lastConversion, hlast]
  rw [ParseCSV_run_eq_setAll, ← hconv]
  apply getSetAll_mem
  · simpa [List.map_map, Function.comp] using accumulate_nodup fields rows
  · exact List.mem_map_of_mem _ (alistGet_mem _ key values hacc)

/-- C10 witness: two bindings with different conversions; the first
binding's field `a` is collapsed with the second (last) binding's
conversion, yielding `1B` rather than `1A`. -/
theorem claim_C10_witness :
    envGet (ParseCSV.run
        [{ query := fun _ => some (XNode.str "1"), key := "a",
           conversion := fun s => Value.str (s ++ "A") },
         { query := fun _ => none, key := "b",
           conversion := fun s => Value.str (s ++ "B") }]
        [[("h", "x")]] []) "a" = some (Value.str "1B") := by
  exact claim_C10
    [{ query := fun _ => some (XNode.str "1"), key := "a",
       conversion := fun s => Value.str (s ++ "A") },
     { query := fun _ => none, key := "b",
       conversion := fun s => Value.str (s ++ "B") }]
    { query := fun _ => none, key := "b", conversion := fun s => Value.str (s ++ "B") }
    [[("h", "x")]] [] "a" [XNode.str "1"] rfl rfl

end Executioner
